import Mathlib

/-!
# Verification model of `scroll_copy`

A shallow embedding of the scroll-harvest CLI `src/scroll_copy.py`.
The program incrementally harvests text lines from a virtualized-scroll
web page into an append-only raw log, deduplicates them, checkpoints
resumable progress, and finalizes the raw log into a deduplicated
artifact.

File contents are modelled as `Option (List String)` (`none` = the file
does not exist, `some lines` = its lines).  Python exceptions are
modelled by `Except PyError`; the external playwright page driver is
modelled as a pair of functions indexed by the attempt counter.
-/

namespace ScrollCopy

/-! ## Exit codes (scroll_copy.py lines 15-20) -/

def EXIT_OK : Nat := 0
def EXIT_CONFIG_ERROR : Nat := 10
def EXIT_SELECTOR_ERROR : Nat := 20
def EXIT_RETRY_EXCEEDED : Nat := 30
def EXIT_WRITE_ERROR : Nat := 40
def EXIT_UNEXPECTED : Nat := 50

/-- Python exception classes raised/caught by the program. -/
inductive PyError where
  | fileNotFound (msg : String)
  | valueError (msg : String)
  | osError (msg : String)
deriving DecidableEq, Repr

/-- `read_lines` (lines 45-49): a missing file yields the empty line
list, otherwise the file's lines. -/
def read_lines (file : Option (List String)) : List String :=
  match file with
  | none => []
  | some lines => lines

/-- Worker of `dedupe_exact` (lines 52-59): walk the lines keeping the
first occurrence of each line; `seen` is the membership set built so
far (the Python `set`, represented by a list used only via `∈`). -/
def dedupe_go (seen : List String) : List String → List String
  | [] => []
  | ln :: rest =>
      if ln ∈ seen then dedupe_go seen rest
      else ln :: dedupe_go (ln :: seen) rest

/-- `dedupe_exact` (lines 52-59): exact-string dedup preserving
first-occurrence order. -/
def dedupe_exact (lines : List String) : List String :=
  dedupe_go [] lines

/-- Result of a successful `finalize_raw_to_final`: the Final Artifact
content written (full overwrite) plus the `(total, unique)` counts the
function returns. -/
structure FinalizeResult where
  final : List String
  total : Nat
  unique : Nat
deriving DecidableEq, Repr

/-- `finalize_raw_to_final` (lines 75-84): read the raw log, drop empty
lines, reject unsupported dedupe modes with `ValueError`, dedupe, write
the artifact and return `(len(lines), len(deduped))`. -/
def finalize_raw_to_final (raw_file : Option (List String)) (dedupe_mode : String) :
    Except PyError FinalizeResult :=
  let lines := (read_lines raw_file).filter (fun ln => ln != "")
  if dedupe_mode != "exact" then
    .error (.valueError ("unsupported dedupe mode: " ++ dedupe_mode))
  else
    let deduped := dedupe_exact lines
    .ok ⟨deduped, lines.length, deduped.length⟩

/-- `finalize_command` (lines 423-437): map the outcome of
`finalize_raw_to_final` to the process exit code. -/
def finalize_command (raw_file : Option (List String)) (dedupe_mode : String) : Nat :=
  match finalize_raw_to_final raw_file dedupe_mode with
  | .ok _ => EXIT_OK
  | .error (.fileNotFound _) => EXIT_CONFIG_ERROR
  | .error (.osError _) => EXIT_WRITE_ERROR
  | .error _ => EXIT_UNEXPECTED

/-- Whether a finalize outcome is the `FileNotFoundError` branch. -/
def isFileNotFoundError : Except PyError FinalizeResult → Bool
  | .error (.fileNotFound _) => true
  | _ => false

/-- The two files touched by the finalizer. -/
structure ArtifactFs where
  raw : Option (List String)
  final : Option (List String)
deriving DecidableEq, Repr

/-- One invocation of the finalizer against the file pair: the raw log
is only read, the final artifact is fully overwritten with the deduped
lines (lines 80-83). -/
def finalize_step (fs : ArtifactFs) (dedupe_mode : String) :
    Except PyError (ArtifactFs × Nat × Nat) :=
  match finalize_raw_to_final fs.raw dedupe_mode with
  | .error e => .error e
  | .ok r => .ok (⟨fs.raw, some r.final⟩, r.total, r.unique)

/-! ## Dedup lemmas -/

theorem mem_dedupe_go (l : List String) :
    ∀ (seen : List String) (x : String), x ∈ dedupe_go seen l ↔ x ∈ l ∧ x ∉ seen := by
  induction l with
  | nil => intro seen x; simp [dedupe_go]
  | cons a rest ih =>
      intro seen x
      by_cases ha : a ∈ seen
      · simp only [dedupe_go, if_pos ha, ih, List.mem_cons]
        constructor
        · rintro ⟨hx, hns⟩; exact ⟨Or.inr hx, hns⟩
        · rintro ⟨hx | hx, hns⟩
          · exact absurd (hx ▸ ha) hns
          · exact ⟨hx, hns⟩
      · simp only [dedupe_go, if_neg ha, List.mem_cons, ih]
        constructor
        · rintro (rfl | ⟨hx, hns⟩)
          · exact ⟨Or.inl rfl, ha⟩
          · exact ⟨Or.inr hx, fun h => hns (Or.inr h)⟩
        · rintro ⟨hx | hx, hns⟩
          · exact Or.inl hx
          · by_cases hxa : x = a
            · exact Or.inl hxa
            · exact Or.inr ⟨hx, fun h => h.elim hxa hns⟩

theorem dedupe_go_nodup (l : List String) :
    ∀ seen : List String, (dedupe_go seen l).Nodup := by
  induction l with
  | nil => intro seen; simp [dedupe_go]
  | cons a rest ih =>
      intro seen
      by_cases ha : a ∈ seen
      · simpa [dedupe_go, ha] using ih seen
      · simp only [dedupe_go, if_neg ha, List.nodup_cons]
        refine ⟨fun hmem => ?_, ih (a :: seen)⟩
        exact ((mem_dedupe_go rest (a :: seen) a).mp hmem).2 (List.mem_cons_self a seen)

theorem dedupe_go_sublist (l : List String) :
    ∀ seen : List String, (dedupe_go seen l).Sublist l := by
  induction l with
  | nil => intro seen; simp [dedupe_go]
  | cons a rest ih =>
      intro seen
      by_cases ha : a ∈ seen
      · simpa [dedupe_go, ha] using (ih seen).cons a
      · simpa [dedupe_go, ha] using (ih (a :: seen)).cons₂ a

theorem dedupe_go_pairwise_indexOf (l : List String) :
    ∀ seen : List String,
      (dedupe_go seen l).Pairwise (fun a b => l.indexOf a < l.indexOf b) := by
  induction l with
  | nil => intro seen; simp [dedupe_go]
  | cons a rest ih =>
      intro seen
      by_cases ha : a ∈ seen
      · simp only [dedupe_go, if_pos ha]
        refine ((ih seen).imp_of_mem ?_)
        intro x y hx hy hlt
        have hxne : x ≠ a := fun h =>
          ((mem_dedupe_go rest seen x).mp hx).2 (h ▸ ha)
        have hyne : y ≠ a := fun h =>
          ((mem_dedupe_go rest seen y).mp hy).2 (h ▸ ha)
        rw [List.indexOf_cons_ne rest (fun h => hxne h.symm),
          List.indexOf_cons_ne rest (fun h => hyne h.symm)]
        omega
      · simp only [dedupe_go, if_neg ha, List.pairwise_cons]
        constructor
        · intro b hb
          have hbne : b ≠ a := fun h =>
            ((mem_dedupe_go rest (a :: seen) b).mp hb).2 (h ▸ List.mem_cons_self a seen)
          rw [List.indexOf_cons_self, List.indexOf_cons_ne rest (fun h => hbne h.symm)]
          omega
        · refine ((ih (a :: seen)).imp_of_mem ?_)
          intro x y hx hy hlt
          have hxne : x ≠ a := fun h =>
            ((mem_dedupe_go rest (a :: seen) x).mp hx).2 (h ▸ List.mem_cons_self a seen)
          have hyne : y ≠ a := fun h =>
            ((mem_dedupe_go rest (a :: seen) y).mp hy).2 (h ▸ List.mem_cons_self a seen)
          rw [List.indexOf_cons_ne rest (fun h => hxne h.symm),
            List.indexOf_cons_ne rest (fun h => hyne h.symm)]
          omega

theorem dedupe_exact_toFinset (lines : List String) :
    (dedupe_exact lines).toFinset = lines.toFinset := by
  ext x
  simp [dedupe_exact, List.mem_toFinset, mem_dedupe_go]

theorem dedupe_exact_length (lines : List String) :
    (dedupe_exact lines).length = lines.toFinset.card := by
  rw [← dedupe_exact_toFinset]
  exact (List.toFinset_card_of_nodup (dedupe_go_nodup lines [])).symm

/-! ## Claim theorems: finalizer -/

/-- C1: `finalize` reads the full raw log, drops empty lines,
deduplicates by exact string match preserving first-occurrence order
(the output is duplicate-free, a sublist of the non-empty lines, has the
same members, counts the distinct non-empty lines, and is ordered by
first occurrence), fully overwrites the final artifact independently of
its previous content, and returns `(total, unique)`; on the concrete raw
log of the end-to-end scenario it produces exactly
`["A\tHello", "B\tWorld"]` with `total = 4` and `unique = 2`. -/
theorem finalize_functional_correctness :
    (∀ (raw : List String) (final_before : Option (List String)),
        finalize_step ⟨some raw, final_before⟩ "exact" =
          .ok (⟨some raw, some (dedupe_exact (raw.filter (fun ln => ln != "")))⟩,
               (raw.filter (fun ln => ln != "")).length,
               (dedupe_exact (raw.filter (fun ln => ln != ""))).length)) ∧
    (∀ lines : List String,
        (dedupe_exact lines).Nodup ∧
        (dedupe_exact lines).Sublist lines ∧
        (∀ x, x ∈ dedupe_exact lines ↔ x ∈ lines) ∧
        (dedupe_exact lines).length = lines.toFinset.card ∧
        (dedupe_exact lines).Pairwise (fun a b => lines.indexOf a < lines.indexOf b)) ∧
    finalize_raw_to_final (some ["A\tHello", "B\tWorld", "A\tHello", "", "B\tWorld"]) "exact" =
      .ok ⟨["A\tHello", "B\tWorld"], 4, 2⟩ := by
  refine ⟨fun raw final_before => rfl, fun lines => ?_, rfl⟩
  exact ⟨dedupe_go_nodup lines [],
    dedupe_go_sublist lines [],
    fun x => by simpa using mem_dedupe_go lines [] x,
    dedupe_exact_length lines,
    dedupe_go_pairwise_indexOf lines []⟩

theorem finalize_step_ok (raw fin : Option (List String)) (mode : String)
    (hm : (mode != "exact") = false) :
    finalize_step ⟨raw, fin⟩ mode =
      .ok (⟨raw, some (dedupe_exact ((read_lines raw).filter (fun ln => ln != "")))⟩,
           ((read_lines raw).filter (fun ln => ln != "")).length,
           (dedupe_exact ((read_lines raw).filter (fun ln => ln != ""))).length) := by
  simp [finalize_step, finalize_raw_to_final, hm]

/-- C7: the finalizer is idempotent: if one invocation on a raw log
produced an artifact and counts, invoking it again on the unchanged raw
log reproduces exactly the same artifact (byte-identical, since the
write is a full overwrite) and the same counts. -/
theorem finalize_idempotent (fs : ArtifactFs) (mode : String) (fs1 : ArtifactFs)
    (t u : Nat) (h : finalize_step fs mode = .ok (fs1, t, u)) :
    finalize_step fs1 mode = .ok (fs1, t, u) := by
  by_cases hm : (mode != "exact") = true
  · exfalso
    simp [finalize_step, finalize_raw_to_final, hm] at h
  · rw [Bool.not_eq_true] at hm
    obtain ⟨raw, fin⟩ := fs
    rw [finalize_step_ok raw fin mode hm] at h
    rw [Except.ok.injEq, Prod.mk.injEq, Prod.mk.injEq] at h
    obtain ⟨h1, h2, h3⟩ := h
    rw [← h1, ← h2, ← h3]
    exact finalize_step_ok raw _ mode hm

/-- Witness for C7 at a concrete file pair: the stale artifact content
`["x"]` is fully overwritten, and a second run is a fixpoint. -/
theorem finalize_idempotent_witness :
    finalize_step ⟨some ["a", "a"], some ["a"]⟩ "exact" =
      .ok (⟨some ["a", "a"], some ["a"]⟩, 2, 1) :=
  finalize_idempotent ⟨some ["a", "a"], some ["x"]⟩ "exact"
    ⟨some ["a", "a"], some ["a"]⟩ 2 1 rfl

/-- C10: a missing raw log does not make `finalize` fail: it reads an
empty line list, writes an empty artifact, returns `(0, 0)`, and the
standalone finalize command exits with the success code; the
`FileNotFoundError` branch of the finalize command is never taken, for
any raw file and any dedupe mode. -/
theorem finalize_missing_raw_succeeds :
    finalize_raw_to_final none "exact" = .ok ⟨[], 0, 0⟩ ∧
    finalize_command none "exact" = EXIT_OK ∧
    (∀ (raw_file : Option (List String)) (mode : String),
      isFileNotFoundError (finalize_raw_to_final raw_file mode) = false) := by
  refine ⟨rfl, rfl, fun raw_file mode => ?_⟩
  unfold finalize_raw_to_final isFileNotFoundError
  by_cases hm : mode != "exact" <;> simp [hm]

/-! ## Checkpoint store: `save_state` (lines 62-67)

The durable store is a map from path to file content; serialization is
abstracted to an opaque content string.  `save_state` first writes the
serialized state to the sibling path `path + ".tmp"` (what
`path.with_suffix(path.suffix + ".tmp")` produces) and then atomically
renames it over the target (`tmp.replace(path)`).  The trace lists the
filesystem after each primitive step, i.e. every state a concurrent
`load` could observe. -/

def FsMap := String → Option String

/-- The sibling temporary path used by `save_state`. -/
def tmp_path (path : String) : String := path ++ ".tmp"

/-- Filesystem after the temporary file has been written. -/
def write_tmp (fs : FsMap) (path content : String) : FsMap :=
  fun p => if p = tmp_path path then some content else fs p

/-- Filesystem after `tmp.replace(path)`: the rename atomically installs
the new content at the target and removes the temporary file. -/
def save_state (fs : FsMap) (path content : String) : FsMap :=
  fun p =>
    if p = path then some content
    else if p = tmp_path path then none
    else fs p

/-- The sequence of filesystem states observable during one
`save_state` call. -/
def save_state_trace (fs : FsMap) (path content : String) : List FsMap :=
  [fs, write_tmp fs path content, save_state fs path content]

theorem tmp_path_ne (path : String) : tmp_path path ≠ path := by
  intro h
  have h2 := congrArg String.length h
  rw [tmp_path, String.length_append] at h2
  have h4 : ".tmp".length = 4 := rfl
  rw [h4] at h2
  omega

/-- C6: at every observable point of a `save_state` call the target path
holds either the previous snapshot or the complete new snapshot; after
the call it holds the new snapshot.  In particular the temporary path is
distinct from the target, so the intermediate write never clobbers it. -/
theorem save_state_atomic (fs : FsMap) (path content : String) :
    (∀ i : Fin (save_state_trace fs path content).length,
        ((save_state_trace fs path content).get i) path = fs path ∨
        ((save_state_trace fs path content).get i) path = some content) ∧
    save_state fs path content path = some content ∧
    tmp_path path ≠ path := by
  refine ⟨fun i => ?_, ?_, tmp_path_ne path⟩
  · match i with
    | ⟨0, _⟩ => exact Or.inl rfl
    | ⟨1, _⟩ =>
        left
        show write_tmp fs path content path = fs path
        rw [write_tmp, if_neg (fun h => tmp_path_ne path h.symm)]
    | ⟨2, _⟩ =>
        right
        show save_state fs path content path = some content
        rw [save_state, if_pos rfl]
  · rw [save_state, if_pos rfl]

/-- Witness for C6 at a concrete store, path and content. -/
theorem save_state_atomic_witness :
    save_state (fun _ => none) "state.json" "snapshot" "state.json" = some "snapshot" :=
  (save_state_atomic (fun _ => none) "state.json" "snapshot").2.1

/-! ## Speaker-label normalization (run_command, lines 291-317)

The with-speaker extraction shape derives the speaker from the raw DOM
label by `speakerRaw.replace(/\s+\d+\s*(時間|分間?|秒間?).*$/, '').trim()`,
where `speakerRaw` is itself `.trim()`ed DOM text.  The JavaScript
regex is embedded over `List Char`: `\s` is the JS whitespace class,
`\d` is `[0-9]`, `.` matches anything but a line terminator and `$`
(without the `m` flag) only the very end of the string.  Since the
whitespace, digit and unit character classes are pairwise disjoint, the
backtracking search is equivalent to maximal munch, and `replace` with a
non-global regex removes the leftmost (and here: to-end-of-string)
match. -/

/-- JS regex `\s` class. -/
def jsWs (c : Char) : Bool :=
  c == ' ' || c == '\t' || c == '\n' || c == '\r' || c == '\x0b' || c == '\x0c' ||
  c == ' ' || c == ' ' ||
  (0x2000 ≤ c.val && c.val ≤ 0x200A) ||
  c == ' ' || c == ' ' || c == ' ' || c == ' ' ||
  c == '　' || c == '﻿'

/-- JS line terminators (not matched by `.`). -/
def jsLineTerm (c : Char) : Bool :=
  c == '\n' || c == '\r' || c == ' ' || c == ' '

/-- JS regex `\d` class. -/
def jsDigit (c : Char) : Bool :=
  48 ≤ c.val && c.val ≤ 57

/-- Consume the alternation `(時間|分間?|秒間?)` (greedily, which is
complete here because the following `.*` accepts anything but a line
terminator and `間` is not one). -/
def timeUnitRest : List Char → Option (List Char)
  | '時' :: '間' :: rest => some rest
  | '分' :: '間' :: rest => some rest
  | '分' :: rest => some rest
  | '秒' :: '間' :: rest => some rest
  | '秒' :: rest => some rest
  | _ => none

/-- Does `\s+\d+\s*(時間|分間?|秒間?).*$` match at the head of `cs`? -/
def matchTimeSuffix (cs : List Char) : Bool :=
  if (cs.takeWhile jsWs).isEmpty then false
  else
    let rest1 := cs.dropWhile jsWs
    if (rest1.takeWhile jsDigit).isEmpty then false
    else
      let rest2 := rest1.dropWhile jsDigit
      match timeUnitRest (rest2.dropWhile jsWs) with
      | some rest4 => rest4.all (fun c => !jsLineTerm c)
      | none => false

/-- `String.replace` with the (non-global, `$`-anchored) time-suffix
regex: cut the string at the leftmost position where the suffix pattern
matches. -/
def stripTimeSuffix : List Char → List Char
  | [] => []
  | c :: cs => if matchTimeSuffix (c :: cs) then [] else c :: stripTimeSuffix cs

/-- JS `String.prototype.trim`. -/
def trimChars (cs : List Char) : List Char :=
  ((cs.dropWhile jsWs).reverse.dropWhile jsWs).reverse

/-- The full speaker derivation of the with-speaker extraction shape:
trim the DOM text, strip the trailing duration annotation, trim again. -/
def derive_speaker (label : String) : String :=
  String.mk (trimChars (stripTimeSuffix (trimChars label.data)))

/-- No position of `cs` starts a time-suffix match. -/
def noTimeSuffixAnywhere : List Char → Bool
  | [] => true
  | c :: cs => !matchTimeSuffix (c :: cs) && noTimeSuffixAnywhere cs

theorem stripTimeSuffix_of_noMatch (cs : List Char)
    (h : noTimeSuffixAnywhere cs = true) : stripTimeSuffix cs = cs := by
  induction cs with
  | nil => rfl
  | cons c rest ih =>
      rw [noTimeSuffixAnywhere, Bool.and_eq_true, Bool.not_eq_true'] at h
      rw [stripTimeSuffix, if_neg (by simp [h.1]), ih h.2]

/-- C9: the speaker normalization strips a trailing duration/time
annotation: `"Jane Doe 1時間30分間45秒間"` yields `"Jane Doe"`,
`"Bob 5秒"` yields `"Bob"`, and a trimmed label in which no position
matches the duration pattern passes through unchanged. -/
theorem speaker_normalization :
    derive_speaker "Jane Doe 1時間30分間45秒間" = "Jane Doe" ∧
    derive_speaker "Bob 5秒" = "Bob" ∧
    (∀ label : String, trimChars label.data = label.data →
      noTimeSuffixAnywhere label.data = true →
      derive_speaker label = label) := by
  refine ⟨by decide, by decide, fun label htrim hnomatch => ?_⟩
  rw [derive_speaker, htrim, stripTimeSuffix_of_noMatch label.data hnomatch, htrim]

/-- Witness for C9: a plain trimmed label with no duration annotation is
unchanged. -/
theorem speaker_normalization_witness : derive_speaker "Alice" = "Alice" :=
  speaker_normalization.2.2 "Alice" (by decide) (by decide)

/-! ## The harvest loop (`run_command`, lines 215-420)

Timestamps are abstracted (`last_new_line_at` to a presence flag), the
raw-log file handle to the list of its lines, and the playwright page to
a `Driver`: a pair of functions indexed by the attempt counter (each
execution of the try-block body is one attempt).  `extract` returns the
serialized record lines of one extraction, or the message of a
recoverable fault (`PlaywrightTimeoutError` / `RuntimeError`); on
success the loop then issues a scroll command and reads back
`scroll_top`.  Persisted snapshots retain exactly the loop-varying
state-file fields: status, progress counters and `last_error`. -/

/-- `state["last_error"]` entries (timestamps abstracted away). -/
structure ErrorInfo where
  code : String
  message : String
  retry_count : Nat
deriving DecidableEq, Repr

/-- `state["progress"]` (lines 124-131). -/
structure Progress where
  loop_count : Nat
  scroll_top : Int
  total_lines_seen : Nat
  unique_lines_seen : Nat
  idle_scroll_count : Nat
  has_last_new_line_at : Bool
deriving DecidableEq, Repr

/-- One persisted checkpoint: the loop-varying fields of the state
file. -/
structure Snapshot where
  status : String
  progress : Progress
  last_error : Option ErrorInfo
deriving DecidableEq, Repr

/-- The live state of one run: the in-memory mutable state of
`run_command` plus the raw log and instrumentation counters (`attempts`
counts executions of the try-block body, `scroll_commands` the scroll
commands issued, `saves` the persisted snapshots in order). -/
structure LoopState where
  status : String
  progress : Progress
  last_error : Option ErrorInfo
  unique_seen : Finset String
  raw : List String
  consecutive_failures : Nat
  attempts : Nat
  scroll_commands : Nat
  saves : List Snapshot
deriving DecidableEq

/-- The external page driver, indexed by the attempt counter. -/
structure Driver where
  extract : Nat → Except String (List String)
  scroll_top : Nat → Int

/-- Loop-relevant configuration produced by `effective_run_config`. -/
structure CfgModel where
  url : Option String
  container : Option String
  line_selector : String
  resume : Bool
  max_idle_scrolls : Nat
  checkpoint_interval : Nat
  max_retries : Nat
  dedupe_mode : String
  do_finalize : Bool
deriving DecidableEq, Repr

/-- The live dedup observation (lines 319-323): insert each extracted
line into `unique_seen`, counting the newly-unique ones. -/
def observe_texts (seen : Finset String) (texts : List String) : Finset String × Nat :=
  texts.foldl (fun acc t => if t ∈ acc.1 then acc else (insert t acc.1, acc.2 + 1)) (seen, 0)

def snapshotOf (s : LoopState) : Snapshot :=
  ⟨s.status, s.progress, s.last_error⟩

/-- `save_state(cfg.state_file, state)` as seen by the loop model:
append the current snapshot to the persisted history. -/
def persist (s : LoopState) : LoopState :=
  { s with saves := s.saves ++ [snapshotOf s] }

/-- Result of one execution of the while-loop body. -/
inductive StepResult where
  | continued (s : LoopState)
  | exceeded (s : LoopState)
deriving DecidableEq

def step_state : StepResult → LoopState
  | .continued s => s
  | .exceeded s => s

/-- One execution of the while-loop body (lines 275-373): extract,
observe, append to the raw log, update progress, idle bookkeeping,
scroll, checkpoint at the configured cadence; on a recoverable fault
record it, persist, and either retry or escalate to `interrupted` with
`E_RETRY_EXCEEDED`. -/
def loop_iter (cfg : CfgModel) (driver : Driver) (s : LoopState) : StepResult :=
  let n := s.attempts
  let s1 := { s with attempts := n + 1 }
  match driver.extract n with
  | .ok texts =>
      let obs := observe_texts s1.unique_seen texts
      let p1 := { s1.progress with
        total_lines_seen := s1.progress.total_lines_seen + texts.length,
        unique_lines_seen := obs.1.card,
        loop_count := s1.progress.loop_count + 1 }
      let p2 :=
        if 0 < obs.2 then { p1 with idle_scroll_count := 0, has_last_new_line_at := true }
        else { p1 with idle_scroll_count := p1.idle_scroll_count + 1 }
      let p3 := { p2 with scroll_top := driver.scroll_top n }
      let s2 := { s1 with
        unique_seen := obs.1,
        raw := s1.raw ++ texts,
        progress := p3,
        last_error := none,
        scroll_commands := s1.scroll_commands + 1,
        consecutive_failures := 0 }
      let s3 := if p3.loop_count % max cfg.checkpoint_interval 1 = 0 then persist s2 else s2
      .continued s3
  | .error msg =>
      let cf := s1.consecutive_failures + 1
      let s2 := persist { s1 with
        consecutive_failures := cf,
        last_error := some ⟨"E_LOOP_OPERATION_FAILED", msg, cf⟩ }
      if cfg.max_retries < cf then
        let s3 := persist { s2 with
          status := "interrupted",
          last_error := some ⟨"E_RETRY_EXCEEDED",
            "max retries exceeded during collection loop", cf⟩ }
        .exceeded s3
      else
        .continued s2

/-- Terminal result of the while loop.  `outOfFuel` is the artifact of
the bounded unrolling, never produced when enough fuel is supplied. -/
inductive RunOutcome where
  | completed (s : LoopState)
  | retryExceeded (s : LoopState)
  | outOfFuel (s : LoopState)
deriving DecidableEq

def outcome_state : RunOutcome → LoopState
  | .completed s => s
  | .retryExceeded s => s
  | .outOfFuel s => s

/-- The while loop (lines 274-377): iterate while
`idle_scroll_count < max_idle_scrolls`; on normal exit set the status to
`completed` and persist once more. -/
def run_loop (cfg : CfgModel) (driver : Driver) : Nat → LoopState → RunOutcome
  | 0, s => .outOfFuel s
  | Nat.succ fuel, s =>
      if s.progress.idle_scroll_count < cfg.max_idle_scrolls then
        match loop_iter cfg driver s with
        | .continued s2 => run_loop cfg driver fuel s2
        | .exceeded s2 => .retryExceeded s2
      else
        .completed (persist { s with status := "completed" })

/-- The resume replay (line 240): fold the raw-log lines into a fresh
seen-set, skipping falsy (empty) lines. -/
def replay_raw (raw_lines : List String) : Finset String :=
  raw_lines.foldl (fun acc ln => if ln == "" then acc else insert ln acc) ∅

def fresh_progress : Progress :=
  ⟨0, 0, 0, 0, 0, false⟩

/-- `loop_count` / `idle_scroll_count` carried over from a loaded
checkpoint on resume (lines 243-244). -/
structure OldProgress where
  loop_count : Nat
  idle_scroll_count : Nat
deriving DecidableEq, Repr

/-- Initial `LoopState` of `run_command` (lines 226-247): a fresh start
deletes the raw log and begins from zeroed progress; a resume re-reads
the raw log, reconstructs the seen-set by replay, re-establishes the
counters from it, and carries over loop/idle counts.  Either way the
state is persisted once before the loop. -/
def init_loop_state (resume : Bool) (raw_file : Option (List String))
    (old : OldProgress) : LoopState :=
  if resume then
    let raw_lines := read_lines raw_file
    let seen := replay_raw raw_lines
    persist
      { status := "running",
        progress := { fresh_progress with
          unique_lines_seen := seen.card,
          total_lines_seen := raw_lines.length,
          loop_count := old.loop_count,
          idle_scroll_count := old.idle_scroll_count },
        last_error := none,
        unique_seen := seen,
        raw := raw_lines,
        consecutive_failures := 0,
        attempts := 0,
        scroll_commands := 0,
        saves := [] }
  else
    persist
      { status := "running",
        progress := fresh_progress,
        last_error := none,
        unique_seen := ∅,
        raw := [],
        consecutive_failures := 0,
        attempts := 0,
        scroll_commands := 0,
        saves := [] }

/-! ## Configuration resolution (`effective_run_config`, lines 153-212) -/

/-- The `target` object of a loaded state file. -/
structure StateTarget where
  url : Option String
  container_selector : Option String
  line_selector : Option String
deriving DecidableEq, Repr

/-- The parts of a loaded state file that `effective_run_config` and the
resume path consult. -/
structure StateFileData where
  target : StateTarget
  progress : OldProgress
deriving DecidableEq, Repr

/-- The CLI arguments consulted by `effective_run_config` and
`run_command`; `state_file = none` models an absent checkpoint file. -/
structure Args where
  url : Option String
  container : Option String
  line_selector : Option String
  resume : Bool
  connect_existing : Bool
  text_only : Bool
  state_file : Option StateFileData
  max_idle_scrolls : Nat
  checkpoint_interval : Nat
  max_retries : Nat
  dedupe_mode : String
  do_finalize : Bool
deriving DecidableEq, Repr

/-- Python truthiness of an optional string: `None` and `""` are falsy. -/
def falsy : Option String → Bool
  | none => true
  | some s => s == ""

/-- The `pick` helper (lines 160-171): a CLI value that is not `None`
wins; otherwise fall back to the loaded state file (only consulted on
resume). -/
def pick (argv : Option String) (resume : Bool) (statev : Option String) : Option String :=
  match argv with
  | some v => some v
  | none => if resume then statev else none

/-- Python `value or default` for the line-selector fallback. -/
def py_or (v : Option String) (dflt : String) : String :=
  match v with
  | some s => if s == "" then dflt else s
  | none => dflt

/-- The `target` section of the loaded state file, or all-`None` when no
state file was loaded. -/
def state_target (st : Option StateFileData) : StateTarget :=
  match st with
  | some f => f.target
  | none => ⟨none, none, none⟩

/-- `effective_run_config` (lines 153-212): reject resume without a
checkpoint, then resolve the target fields and reject missing required
parameters. -/
def effective_run_config (a : Args) : Except PyError CfgModel :=
  if a.resume && a.state_file.isNone then
    .error (.valueError "state file not found")
  else
    let tgt : StateTarget := state_target a.state_file
    let url := pick a.url a.resume tgt.url
    let container := pick a.container a.resume tgt.container_selector
    let line_selector := pick a.line_selector a.resume tgt.line_selector
    if !a.connect_existing && falsy url then
      .error (.valueError "url is required")
    else if falsy container then
      .error (.valueError "container is required")
    else if a.text_only && falsy line_selector then
      .error (.valueError "line-selector is required in text-only mode")
    else
      .ok
        { url := url,
          container := container,
          line_selector := py_or line_selector "[class^=\"entryText-\"]",
          resume := a.resume,
          max_idle_scrolls := a.max_idle_scrolls,
          checkpoint_interval := a.checkpoint_interval,
          max_retries := a.max_retries,
          dedupe_mode := a.dedupe_mode,
          do_finalize := a.do_finalize }

/-- `run_command` up to the loop (lines 215-378): resolve the config
(`ValueError` aborts with the config-error exit before any driver
interaction), build the initial state, and run the loop. -/
def run_command_model (a : Args) (raw_file : Option (List String)) (driver : Driver)
    (fuel : Nat) : Except PyError (CfgModel × RunOutcome) :=
  match effective_run_config a with
  | .error e => .error e
  | .ok cfg =>
      let old : OldProgress :=
        match a.state_file with
        | some f => f.progress
        | none => ⟨0, 0⟩
      .ok (cfg, run_loop cfg driver fuel (init_loop_state cfg.resume raw_file old))

/-- Exit code of a loop outcome (lines 371, 408-420): retry exhaustion
returns `EXIT_RETRY_EXCEEDED`; completion finalizes when configured
(an unsupported dedupe mode then surfaces as `EXIT_UNEXPECTED`, the
success path as `EXIT_OK`).  Out-of-fuel has no exit code. -/
def exit_of_outcome (cfg : CfgModel) : RunOutcome → Option Nat
  | .retryExceeded _ => some EXIT_RETRY_EXCEEDED
  | .completed _ =>
      if cfg.do_finalize && cfg.dedupe_mode != "exact" then some EXIT_UNEXPECTED
      else some EXIT_OK
  | .outOfFuel _ => none

/-- Exit code of the whole `run` command. -/
def run_command_exit (a : Args) (raw_file : Option (List String)) (driver : Driver)
    (fuel : Nat) : Option Nat :=
  match run_command_model a raw_file driver fuel with
  | .error _ => some EXIT_CONFIG_ERROR
  | .ok (cfg, outcome) => exit_of_outcome cfg outcome

/-! ## Loop-iteration lemmas -/

theorem loop_iter_ok (cfg : CfgModel) (driver : Driver) (s : LoopState)
    (texts : List String) (hm : driver.extract s.attempts = .ok texts) :
    ∃ s', loop_iter cfg driver s = .continued s' ∧
      s'.unique_seen = (observe_texts s.unique_seen texts).1 ∧
      s'.progress.unique_lines_seen = (observe_texts s.unique_seen texts).1.card ∧
      s'.progress.idle_scroll_count =
        (if 0 < (observe_texts s.unique_seen texts).2 then 0
         else s.progress.idle_scroll_count + 1) ∧
      s'.attempts = s.attempts + 1 ∧
      s'.scroll_commands = s.scroll_commands + 1 ∧
      s'.status = s.status ∧
      s'.raw = s.raw ++ texts ∧
      (∀ snap ∈ s'.saves,
        snap ∈ s.saves ∨ snap.progress.unique_lines_seen = s'.unique_seen.card) := by
  simp only [loop_iter, hm]
  refine ⟨_, rfl, ?_, ?_, ?_, ?_, ?_, ?_, ?_, ?_⟩ <;>
    split <;> split <;> simp [persist, snapshotOf] <;>
      first
        | (rintro snap (hs | rfl)
           exacts [Or.inl hs, Or.inr rfl])
        | exact fun snap hs => Or.inl hs

theorem loop_iter_error_retry (cfg : CfgModel) (driver : Driver) (s : LoopState)
    (msg : String) (hm : driver.extract s.attempts = .error msg)
    (hcf : s.consecutive_failures + 1 ≤ cfg.max_retries) :
    ∃ s', loop_iter cfg driver s = .continued s' ∧
      s'.progress = s.progress ∧
      s'.status = s.status ∧
      s'.unique_seen = s.unique_seen ∧
      s'.raw = s.raw ∧
      s'.consecutive_failures = s.consecutive_failures + 1 ∧
      s'.attempts = s.attempts + 1 ∧
      s'.scroll_commands = s.scroll_commands ∧
      (∀ snap ∈ s'.saves, snap ∈ s.saves ∨ snap.progress = s.progress) := by
  have hlt : ¬ cfg.max_retries < s.consecutive_failures + 1 := by omega
  simp only [loop_iter, hm, hlt, if_false]
  refine ⟨_, rfl, rfl, rfl, rfl, rfl, rfl, rfl, rfl, ?_⟩
  simp only [persist, snapshotOf, List.mem_append, List.mem_singleton]
  rintro snap (hs | rfl)
  exacts [Or.inl hs, Or.inr rfl]

theorem loop_iter_error_exceeded (cfg : CfgModel) (driver : Driver) (s : LoopState)
    (msg : String) (hm : driver.extract s.attempts = .error msg)
    (hcf : cfg.max_retries < s.consecutive_failures + 1) :
    ∃ s', loop_iter cfg driver s = .exceeded s' ∧
      s'.progress = s.progress ∧
      s'.status = "interrupted" ∧
      s'.unique_seen = s.unique_seen ∧
      s'.raw = s.raw ∧
      s'.consecutive_failures = s.consecutive_failures + 1 ∧
      s'.attempts = s.attempts + 1 ∧
      s'.scroll_commands = s.scroll_commands ∧
      s'.last_error = some ⟨"E_RETRY_EXCEEDED",
        "max retries exceeded during collection loop", s.consecutive_failures + 1⟩ ∧
      s'.saves.getLast? = some (snapshotOf s') ∧
      (∀ snap ∈ s'.saves, snap ∈ s.saves ∨ snap.progress = s.progress) := by
  simp only [loop_iter, hm, hcf, if_true]
  refine ⟨_, rfl, rfl, rfl, rfl, rfl, rfl, rfl, rfl, rfl, ?_, ?_⟩
  · simp only [persist, snapshotOf, List.getLast?_concat]
  · simp only [persist, snapshotOf, List.mem_append, List.mem_singleton]
    rintro snap ((hs | rfl) | rfl)
    exacts [Or.inl hs, Or.inr rfl, Or.inr rfl]

/-- Did the loop terminate via retry exhaustion (the
`return EXIT_RETRY_EXCEEDED` at line 371)? -/
def isRetryExceeded : RunOutcome → Bool
  | .retryExceeded _ => true
  | _ => false

/-- Did the loop terminate via the idle threshold (lines 375-377)? -/
def isCompleted : RunOutcome → Bool
  | .completed _ => true
  | _ => false

/-! ## C2: the retry bound -/

theorem run_loop_allfail_aux (cfg : CfgModel) (driver : Driver)
    (hfail : ∀ n, ∃ m, driver.extract n = .error m) :
    ∀ (fuel : Nat) (s : LoopState),
      s.progress.idle_scroll_count < cfg.max_idle_scrolls →
      s.consecutive_failures ≤ cfg.max_retries →
      cfg.max_retries + 1 - s.consecutive_failures ≤ fuel →
      ∃ s', run_loop cfg driver fuel s = .retryExceeded s' ∧
        s'.attempts = s.attempts + (cfg.max_retries + 1 - s.consecutive_failures) ∧
        s'.status = "interrupted" ∧
        s'.last_error = some ⟨"E_RETRY_EXCEEDED",
          "max retries exceeded during collection loop", cfg.max_retries + 1⟩ ∧
        s'.saves.getLast? = some (snapshotOf s') := by
  intro fuel
  induction fuel with
  | zero => intro s _ hcf hfuel; omega
  | succ fuel ih =>
      intro s hidle hcf hfuel
      obtain ⟨m, hm⟩ := hfail s.attempts
      by_cases hesc : cfg.max_retries < s.consecutive_failures + 1
      · obtain ⟨s', hstep, hprog, hstat, hseen, hraw, hcf', hatt, hscr, herr, hlast, _⟩ :=
          loop_iter_error_exceeded cfg driver s m hm hesc
        have hrun : run_loop cfg driver (fuel + 1) s = .retryExceeded s' := by
          simp only [run_loop, if_pos hidle, hstep]
        refine ⟨s', hrun, by rw [hatt]; omega, hstat, ?_, hlast⟩
        rw [herr, (by omega : s.consecutive_failures = cfg.max_retries)]
      · obtain ⟨s', hstep, hprog, hstat, hseen, hraw, hcf', hatt, hscr, _⟩ :=
          loop_iter_error_retry cfg driver s m hm (by omega)
        have hidle' : s'.progress.idle_scroll_count < cfg.max_idle_scrolls := by
          rw [hprog]; exact hidle
        obtain ⟨s'', hrun, hatt'', hstat'', herr'', hlast''⟩ :=
          ih s' hidle' (by omega) (by omega)
        refine ⟨s'', ?_, ?_, hstat'', herr'', hlast''⟩
        · simp only [run_loop, if_pos hidle, hstep]
          exact hrun
        · rw [hatt'', hatt, hcf']
          omega

/-- C2: with a driver whose extraction step raises a recoverable fault
on every attempt, a (fresh-start) run makes exactly
`max_retries + 1` attempts, transitions the status to `interrupted`,
persists that state as the last checkpoint (with the `E_RETRY_EXCEEDED`
error, `retry_count = max_retries + 1`), and terminates with the
`EXIT_RETRY_EXCEEDED` signal, distinct from every other exit code. -/
theorem retry_bound (cfg : CfgModel) (driver : Driver)
    (raw_file : Option (List String)) (old : OldProgress) (fuel : Nat)
    (hfail : ∀ n, ∃ m, driver.extract n = .error m)
    (hidle : 0 < cfg.max_idle_scrolls)
    (hfuel : cfg.max_retries + 1 ≤ fuel) :
    isRetryExceeded (run_loop cfg driver fuel (init_loop_state false raw_file old)) = true ∧
    (outcome_state (run_loop cfg driver fuel (init_loop_state false raw_file old))).attempts =
      cfg.max_retries + 1 ∧
    (outcome_state (run_loop cfg driver fuel (init_loop_state false raw_file old))).status =
      "interrupted" ∧
    (outcome_state (run_loop cfg driver fuel (init_loop_state false raw_file old))).last_error =
      some ⟨"E_RETRY_EXCEEDED", "max retries exceeded during collection loop",
        cfg.max_retries + 1⟩ ∧
    (outcome_state (run_loop cfg driver fuel (init_loop_state false raw_file old))).saves.getLast? =
      some (snapshotOf
        (outcome_state (run_loop cfg driver fuel (init_loop_state false raw_file old)))) ∧
    exit_of_outcome cfg (run_loop cfg driver fuel (init_loop_state false raw_file old)) =
      some EXIT_RETRY_EXCEEDED ∧
    EXIT_RETRY_EXCEEDED ≠ EXIT_OK ∧
    EXIT_RETRY_EXCEEDED ≠ EXIT_CONFIG_ERROR ∧
    EXIT_RETRY_EXCEEDED ≠ EXIT_SELECTOR_ERROR ∧
    EXIT_RETRY_EXCEEDED ≠ EXIT_WRITE_ERROR ∧
    EXIT_RETRY_EXCEEDED ≠ EXIT_UNEXPECTED := by
  have h0 : (init_loop_state false raw_file old).consecutive_failures = 0 := rfl
  have h1 : (init_loop_state false raw_file old).attempts = 0 := rfl
  have h2 : (init_loop_state false raw_file old).progress.idle_scroll_count = 0 := rfl
  obtain ⟨s, hrun, hatt, hstat, herr, hlast⟩ :=
    run_loop_allfail_aux cfg driver hfail fuel (init_loop_state false raw_file old)
      (by omega) (by omega) (by omega)
  rw [hrun]
  exact ⟨rfl, by rw [outcome_state, hatt]; omega, hstat, herr, hlast, rfl,
    by decide, by decide, by decide, by decide, by decide⟩

/-- A driver whose extraction always raises a recoverable fault. -/
def failDriver : Driver :=
  ⟨fun _ => .error "simulated fault", fun _ => 0⟩

/-- A driver whose extraction always succeeds with zero records. -/
def emptyDriver : Driver :=
  ⟨fun _ => .ok [], fun _ => 0⟩

/-- A small concrete configuration (`max_idle_scrolls = 2`,
`checkpoint_interval = 5`, `max_retries = 3`). -/
def smallCfg : CfgModel :=
  ⟨some "http://example", some "#container", "[class^=\"entryText-\"]",
   false, 2, 5, 3, "exact", false⟩

/-- Witness for C2 at a concrete configuration and driver. -/
theorem retry_bound_witness :
    (outcome_state (run_loop smallCfg failDriver 4 (init_loop_state false none ⟨0, 0⟩))).attempts =
      4 ∧
    (outcome_state (run_loop smallCfg failDriver 4 (init_loop_state false none ⟨0, 0⟩))).status =
      "interrupted" ∧
    exit_of_outcome smallCfg (run_loop smallCfg failDriver 4 (init_loop_state false none ⟨0, 0⟩)) =
      some EXIT_RETRY_EXCEEDED := by
  obtain ⟨_, hatt, hstat, _, _, hexit, _⟩ :=
    retry_bound smallCfg failDriver none ⟨0, 0⟩ 4
      (fun _ => ⟨"simulated fault", rfl⟩) (by decide) (by decide)
  exact ⟨hatt, hstat, hexit⟩

/-! ## C3: idle termination -/

theorem run_loop_idle_aux (cfg : CfgModel) (driver : Driver)
    (hempty : ∀ n, driver.extract n = .ok []) :
    ∀ (fuel : Nat) (s : LoopState),
      s.progress.idle_scroll_count ≤ cfg.max_idle_scrolls →
      cfg.max_idle_scrolls - s.progress.idle_scroll_count + 1 ≤ fuel →
      ∃ s', run_loop cfg driver fuel s = .completed s' ∧
        s'.status = "completed" ∧
        s'.progress.idle_scroll_count = cfg.max_idle_scrolls ∧
        s'.attempts = s.attempts +
          (cfg.max_idle_scrolls - s.progress.idle_scroll_count) ∧
        s'.scroll_commands = s.scroll_commands +
          (cfg.max_idle_scrolls - s.progress.idle_scroll_count) ∧
        s'.saves.getLast? = some (snapshotOf s') := by
  intro fuel
  induction fuel with
  | zero => intro s hle hfuel; omega
  | succ fuel ih =>
      intro s hle hfuel
      by_cases hidle : s.progress.idle_scroll_count < cfg.max_idle_scrolls
      · obtain ⟨s1, hstep, hseen, huniq, hidle1, hatt, hscr, hstat, hraw, _⟩ :=
          loop_iter_ok cfg driver s [] (hempty s.attempts)
        have hidle1' : s1.progress.idle_scroll_count = s.progress.idle_scroll_count + 1 := by
          rw [hidle1]
          rfl
        obtain ⟨s', hrun, hstat', hidle', hatt', hscr', hlast'⟩ :=
          ih s1 (by omega) (by omega)
        refine ⟨s', ?_, hstat', hidle', ?_, ?_, hlast'⟩
        · simp only [run_loop, if_pos hidle, hstep]
          exact hrun
        · rw [hatt', hatt, hidle1']
          omega
        · rw [hscr', hscr, hidle1']
          omega
      · have heq : s.progress.idle_scroll_count = cfg.max_idle_scrolls := by omega
        refine ⟨persist { s with status := "completed" },
          by simp only [run_loop, if_neg hidle], rfl, ?_, ?_, ?_, ?_⟩
        · simp [persist, heq]
        · simp only [persist]
          omega
        · simp only [persist]
          omega
        · simp only [persist, snapshotOf, List.getLast?_concat]

/-- C3: with a driver yielding zero new records on every iteration, a
(fresh-start) run executes exactly `max_idle_scrolls` iterations, each
issuing exactly one scroll command, then terminates with status
`completed` — no scroll command is issued by or after the terminal
transition, whose snapshot is the last persisted state.  Moreover in any
iteration with a positive newly-unique count the idle counter is reset
to zero. -/
theorem idle_termination (cfg : CfgModel) (driver : Driver)
    (raw_file : Option (List String)) (old : OldProgress) (fuel : Nat)
    (hempty : ∀ n, driver.extract n = .ok [])
    (hfuel : cfg.max_idle_scrolls + 1 ≤ fuel) :
    isCompleted (run_loop cfg driver fuel (init_loop_state false raw_file old)) = true ∧
    (outcome_state (run_loop cfg driver fuel (init_loop_state false raw_file old))).status =
      "completed" ∧
    (outcome_state
        (run_loop cfg driver fuel (init_loop_state false raw_file old))).progress.idle_scroll_count =
      cfg.max_idle_scrolls ∧
    (outcome_state (run_loop cfg driver fuel (init_loop_state false raw_file old))).attempts =
      cfg.max_idle_scrolls ∧
    (outcome_state (run_loop cfg driver fuel (init_loop_state false raw_file old))).scroll_commands =
      cfg.max_idle_scrolls ∧
    (outcome_state (run_loop cfg driver fuel (init_loop_state false raw_file old))).saves.getLast? =
      some (snapshotOf
        (outcome_state (run_loop cfg driver fuel (init_loop_state false raw_file old)))) ∧
    (∀ (cfg2 : CfgModel) (d2 : Driver) (st s1 : LoopState) (texts : List String),
      d2.extract st.attempts = .ok texts →
      0 < (observe_texts st.unique_seen texts).2 →
      loop_iter cfg2 d2 st = .continued s1 →
      s1.progress.idle_scroll_count = 0) := by
  have h1 : (init_loop_state false raw_file old).attempts = 0 := rfl
  have h2 : (init_loop_state false raw_file old).progress.idle_scroll_count = 0 := rfl
  have h3 : (init_loop_state false raw_file old).scroll_commands = 0 := rfl
  obtain ⟨s, hrun, hstat, hidle, hatt, hscr, hlast⟩ :=
    run_loop_idle_aux cfg driver hempty fuel (init_loop_state false raw_file old)
      (by omega) (by omega)
  rw [hrun]
  refine ⟨rfl, hstat, hidle, by rw [outcome_state, hatt]; omega,
    by rw [outcome_state, hscr]; omega, hlast, ?_⟩
  intro cfg2 d2 st s1 texts hm hnew hstep
  obtain ⟨s1', hstep', _, _, hidle1, _⟩ := loop_iter_ok cfg2 d2 st texts hm
  rw [hstep] at hstep'
  cases hstep'
  rw [hidle1, if_pos hnew]

/-- Witness for C3 at a concrete configuration and driver. -/
theorem idle_termination_witness :
    (outcome_state (run_loop smallCfg emptyDriver 3 (init_loop_state false none ⟨0, 0⟩))).status =
      "completed" ∧
    (outcome_state
        (run_loop smallCfg emptyDriver 3 (init_loop_state false none ⟨0, 0⟩))).scroll_commands =
      2 := by
  obtain ⟨_, hstat, _, _, hscr, _⟩ :=
    idle_termination smallCfg emptyDriver none ⟨0, 0⟩ 3 (fun _ => rfl) (by decide)
  exact ⟨hstat, hscr⟩

/-! ## C4: resume replay -/

theorem replay_raw_go (l : List String) :
    ∀ acc : Finset String,
      l.foldl (fun acc ln => if ln == "" then acc else insert ln acc) acc =
        acc ∪ (l.filter (fun ln => ln != "")).toFinset := by
  induction l with
  | nil => intro acc; simp
  | cons ln rest ih =>
      intro acc
      by_cases h : (ln == "") = true
      · have hne : (ln != "") = false := by simp [bne, h]
        rw [List.foldl_cons, if_pos h, List.filter_cons]
        simp only [hne, Bool.false_eq_true, if_false]
        exact ih acc
      · have hne : (ln != "") = true := by simp [bne, h]
        rw [List.foldl_cons, if_neg h, List.filter_cons]
        simp only [hne, if_true, List.toFinset_cons]
        rw [ih (insert ln acc), Finset.insert_union, Finset.union_insert]

theorem replay_raw_eq (raw_lines : List String) :
    replay_raw raw_lines = (raw_lines.filter (fun ln => ln != "")).toFinset := by
  rw [replay_raw, replay_raw_go]
  simp

/-- C4: resuming replays the raw log through the dedup accumulator: for
a raw log of `N` lines the reconstructed seen-set is exactly the set of
its distinct non-empty lines, `unique_lines_seen` is re-established as
its size (for a raw log without empty lines, the number `U` of distinct
lines), `total_lines_seen = N`, and the reconstructed counts do not
depend on the loaded checkpoint's own counters — hence they are the same
however many times resume is invoked on the unchanged raw log. -/
theorem resume_replay_correct (raw_lines : List String) (old old2 : OldProgress) :
    (init_loop_state true (some raw_lines) old).unique_seen =
      (raw_lines.filter (fun ln => ln != "")).toFinset ∧
    (init_loop_state true (some raw_lines) old).progress.unique_lines_seen =
      (raw_lines.filter (fun ln => ln != "")).toFinset.card ∧
    (init_loop_state true (some raw_lines) old).progress.total_lines_seen =
      raw_lines.length ∧
    ("" ∉ raw_lines →
      (init_loop_state true (some raw_lines) old).progress.unique_lines_seen =
        raw_lines.toFinset.card) ∧
    (init_loop_state true (some raw_lines) old).progress.unique_lines_seen =
      (init_loop_state true (some raw_lines) old2).progress.unique_lines_seen ∧
    (init_loop_state true (some raw_lines) old).progress.total_lines_seen =
      (init_loop_state true (some raw_lines) old2).progress.total_lines_seen := by
  have hseen : ∀ o : OldProgress,
      (init_loop_state true (some raw_lines) o).unique_seen = replay_raw raw_lines :=
    fun o => rfl
  have huniq : ∀ o : OldProgress,
      (init_loop_state true (some raw_lines) o).progress.unique_lines_seen =
        (replay_raw raw_lines).card :=
    fun o => rfl
  have htot : ∀ o : OldProgress,
      (init_loop_state true (some raw_lines) o).progress.total_lines_seen =
        raw_lines.length :=
    fun o => rfl
  refine ⟨by rw [hseen old, replay_raw_eq], by rw [huniq old, replay_raw_eq], htot old,
    fun hno => ?_, by rw [huniq old, huniq old2], by rw [htot old, htot old2]⟩
  rw [huniq old, replay_raw_eq, List.filter_eq_self.mpr]
  intro a ha
  simp only [bne_iff_ne, ne_eq]
  exact fun h => hno (h ▸ ha)

/-- Witness for C4: a raw log with three lines, two of them equal, under
a stale checkpoint whose counters disagree. -/
theorem resume_replay_correct_witness :
    (init_loop_state true (some ["a", "b", "a"]) ⟨5, 1⟩).progress.unique_lines_seen =
      (["a", "b", "a"] : List String).toFinset.card :=
  (resume_replay_correct ["a", "b", "a"] ⟨5, 1⟩ ⟨0, 0⟩).2.2.2.1 (by decide)

/-! ## C5: the unique-count invariant -/

/-- The RunState invariant:
`unique_lines_seen == size of the dedup accumulator's seen-set`. -/
def seen_inv (s : LoopState) : Prop :=
  s.progress.unique_lines_seen = s.unique_seen.card

theorem run_loop_seen_inv (cfg : CfgModel) (driver : Driver) :
    ∀ (fuel : Nat) (s : LoopState), seen_inv s →
      seen_inv (outcome_state (run_loop cfg driver fuel s)) := by
  intro fuel
  induction fuel with
  | zero => intro s h; exact h
  | succ fuel ih =>
      intro s h
      by_cases hidle : s.progress.idle_scroll_count < cfg.max_idle_scrolls
      · cases hext : driver.extract s.attempts with
        | ok texts =>
            obtain ⟨s1, hstep, hseen, huniq, _⟩ := loop_iter_ok cfg driver s texts hext
            have h1 : seen_inv s1 := by
              show s1.progress.unique_lines_seen = s1.unique_seen.card
              rw [huniq, hseen]
            simp only [run_loop, if_pos hidle, hstep]
            exact ih s1 h1
        | error msg =>
            by_cases hesc : cfg.max_retries < s.consecutive_failures + 1
            · obtain ⟨s1, hstep, hprog, _, hseen, _⟩ :=
                loop_iter_error_exceeded cfg driver s msg hext hesc
              simp only [run_loop, if_pos hidle, hstep]
              show s1.progress.unique_lines_seen = s1.unique_seen.card
              rw [hprog, hseen]
              exact h
            · obtain ⟨s1, hstep, hprog, _, hseen, _⟩ :=
                loop_iter_error_retry cfg driver s msg hext (by omega)
              have h1 : seen_inv s1 := by
                show s1.progress.unique_lines_seen = s1.unique_seen.card
                rw [hprog, hseen]
                exact h
              simp only [run_loop, if_pos hidle, hstep]
              exact ih s1 h1
      · simp only [run_loop, if_neg hidle]
        exact h

/-- C5: the invariant `unique_lines_seen = |seen-set|` is established by
initialization (fresh or resume replay), preserved by every loop
iteration (successful or faulting, including escalation), holds at
every loop exit, and every snapshot persisted during an iteration
records a `unique_lines_seen` equal to the size of the seen-set as of
that iteration. -/
theorem unique_count_invariant :
    (∀ (resume : Bool) (raw_file : Option (List String)) (old : OldProgress),
      seen_inv (init_loop_state resume raw_file old)) ∧
    (∀ (cfg : CfgModel) (driver : Driver) (s : LoopState), seen_inv s →
      seen_inv (step_state (loop_iter cfg driver s)) ∧
      (∀ snap ∈ (step_state (loop_iter cfg driver s)).saves,
        snap ∈ s.saves ∨
          snap.progress.unique_lines_seen =
            (step_state (loop_iter cfg driver s)).unique_seen.card)) ∧
    (∀ (cfg : CfgModel) (driver : Driver) (fuel : Nat) (s : LoopState),
      seen_inv s → seen_inv (outcome_state (run_loop cfg driver fuel s))) := by
  refine ⟨fun resume raw_file old => ?_, fun cfg driver s h => ?_, run_loop_seen_inv⟩
  · cases resume <;> rfl
  · cases hext : driver.extract s.attempts with
    | ok texts =>
        obtain ⟨s1, hstep, hseen, huniq, _, _, _, _, _, hsaves⟩ :=
          loop_iter_ok cfg driver s texts hext
        rw [hstep]
        have h1 : seen_inv s1 := by
          show s1.progress.unique_lines_seen = s1.unique_seen.card
          rw [huniq, hseen]
        refine ⟨h1, ?_⟩
        simpa [step_state] using hsaves
    | error msg =>
        by_cases hesc : cfg.max_retries < s.consecutive_failures + 1
        · obtain ⟨s1, hstep, hprog, _, hseen, _, _, _, _, _, _, hsaves⟩ :=
            loop_iter_error_exceeded cfg driver s msg hext hesc
          rw [hstep]
          have h1 : seen_inv s1 := by
            show s1.progress.unique_lines_seen = s1.unique_seen.card
            rw [hprog, hseen]
            exact h
          refine ⟨h1, ?_⟩
          intro snap hsnap
          rcases hsaves snap hsnap with hs | hs
          · exact Or.inl hs
          · right
            rw [hs]
            show s.progress.unique_lines_seen = s1.unique_seen.card
            rw [hseen, ← h]
        · obtain ⟨s1, hstep, hprog, _, hseen, _, _, _, _, hsaves⟩ :=
            loop_iter_error_retry cfg driver s msg hext (by omega)
          rw [hstep]
          have h1 : seen_inv s1 := by
            show s1.progress.unique_lines_seen = s1.unique_seen.card
            rw [hprog, hseen]
            exact h
          refine ⟨h1, ?_⟩
          intro snap hsnap
          rcases hsaves snap hsnap with hs | hs
          · exact Or.inl hs
          · right
            rw [hs]
            show s.progress.unique_lines_seen = s1.unique_seen.card
            rw [hseen, ← h]

/-- Witness for C5: the invariant holds at the end of a concrete
fresh-start run. -/
theorem unique_count_invariant_witness :
    seen_inv (outcome_state (run_loop smallCfg emptyDriver 3 (init_loop_state false none ⟨0, 0⟩))) :=
  unique_count_invariant.2.2 smallCfg emptyDriver 3 (init_loop_state false none ⟨0, 0⟩) rfl

/-! ## C8: configuration faults -/

/-- Attempt count of the run's loop outcome, when the run got past
configuration resolution. -/
def model_attempts (r : Except PyError (CfgModel × RunOutcome)) : Option Nat :=
  match r with
  | .ok (_, o) => some (outcome_state o).attempts
  | .error _ => none

/-- Concrete arguments with everything required present but an
unsupported dedupe mode, against which the `run` command runs its full
harvest loop before finalize fails. -/
def fuzzyArgs : Args :=
  ⟨some "http://example", some "#container", none, false, false, false, none,
   1, 5, 3, "fuzzy", true⟩

/-- C8 counterexample: an unsupported dedupe mode — a ConfigurationFault
per the claim — is not surfaced as a configuration error: the
standalone finalize command maps its `ValueError` to `EXIT_UNEXPECTED`,
not `EXIT_CONFIG_ERROR`; and the `run` command with such a mode does not
abort pre-loop: it executes its loop iteration (one attempt) and only
then exits with `EXIT_UNEXPECTED` from the post-loop finalize. -/
theorem configuration_fault_cx :
    finalize_command (some ["x"]) "fuzzy" = EXIT_UNEXPECTED ∧
    EXIT_UNEXPECTED ≠ EXIT_CONFIG_ERROR ∧
    run_command_exit fuzzyArgs none emptyDriver 2 = some EXIT_UNEXPECTED ∧
    model_attempts (run_command_model fuzzyArgs none emptyDriver 2) = some 1 := by
  refine ⟨rfl, by decide, rfl, rfl⟩

/-- C8 (amended): a `ValueError` from `effective_run_config` — in
particular a missing required parameter or resume requested with the
checkpoint file absent — aborts the run with `EXIT_CONFIG_ERROR` before
the loop, independently of the driver, the fuel and the raw log (so: no
retry, no driver interaction, and never a silent fresh start); an
unsupported dedupe mode, by contrast, raises only inside finalize and is
surfaced as `EXIT_UNEXPECTED` (by the standalone finalize command, and
by the run command only after a completed loop). -/
theorem configuration_fault_handling :
    (∀ (a : Args) (e : PyError), effective_run_config a = .error e →
      ∀ (raw_file : Option (List String)) (driver : Driver) (fuel : Nat),
        run_command_model a raw_file driver fuel = .error e ∧
        run_command_exit a raw_file driver fuel = some EXIT_CONFIG_ERROR) ∧
    (∀ a : Args, a.resume = true → a.state_file = none →
      effective_run_config a = .error (.valueError "state file not found")) ∧
    (∀ a : Args, a.resume = false → a.connect_existing = false → a.url = none →
      effective_run_config a = .error (.valueError "url is required")) ∧
    (∀ a : Args, a.resume = false → a.connect_existing = true → a.container = none →
      effective_run_config a = .error (.valueError "container is required")) ∧
    (∀ (raw_file : Option (List String)) (mode : String), mode ≠ "exact" →
      finalize_command raw_file mode = EXIT_UNEXPECTED) ∧
    (∀ (cfg : CfgModel) (s : LoopState), cfg.do_finalize = true → cfg.dedupe_mode ≠ "exact" →
      exit_of_outcome cfg (.completed s) = some EXIT_UNEXPECTED) := by
  refine ⟨?_, ?_, ?_, ?_, ?_, ?_⟩
  · intro a e h raw_file driver fuel
    have hmodel : run_command_model a raw_file driver fuel = .error e := by
      simp only [run_command_model, h]
    exact ⟨hmodel, by simp only [run_command_exit, hmodel]⟩
  · intro a hres hstate
    simp [effective_run_config, hres, hstate]
  · intro a hres hconn hurl
    simp [effective_run_config, hres, hconn, hurl, pick, falsy]
  · intro a hres hconn hcont
    simp [effective_run_config, hres, hconn, hcont, pick, falsy]
  · intro raw_file mode hmode
    have hb : (mode != "exact") = true := by simpa using hmode
    simp [finalize_command, finalize_raw_to_final, hb]
  · intro cfg s hdf hmode
    have hb : (cfg.dedupe_mode != "exact") = true := by simpa using hmode
    simp [exit_of_outcome, hdf, hb]

/-- Witness for C8 (amended) at concrete arguments: resume with an
absent checkpoint aborts with the configuration-error exit, for a
concrete driver and fuel. -/
theorem configuration_fault_handling_witness :
    run_command_exit
        ⟨some "http://example", some "#container", none, true, false, false, none,
         1, 5, 3, "exact", true⟩ none emptyDriver 7 =
      some EXIT_CONFIG_ERROR :=
  ((configuration_fault_handling.1
      ⟨some "http://example", some "#container", none, true, false, false, none,
       1, 5, 3, "exact", true⟩
      (.valueError "state file not found") rfl) none emptyDriver 7).2

end ScrollCopy
